import Mathlib

/-!
Shallow embedding of the rslox interpreter (BlueBlazin/rslox) and proofs
about the properties its specification states.

Conventions used throughout:
* Rust `u8` arithmetic is modelled on `Nat` with explicit reduction mod 256
  at the points where the source casts with `as u8` (release-mode wrapping
  semantics).
* Heap handles (`crate::gc::Handle`, a raw pointer) are modelled as `Nat`.
  The `Heap` (a `HashSet` of handles whose pointees live behind the raw
  pointers) is modelled as an association list from handle to object.
* `f64` is abstracted as a type parameter `N` equipped with `BEq`
  (the source only ever copies numbers and compares them with `f64::eq`).
* `Vec` push/pop (used as a stack) is modelled with `List` cons/head, and
  `Vec` append-at-end (used as a growable buffer) with `List` append,
  preserving the order each loop observes.
* Fallible Rust functions returning `Result` are modelled with `Except`;
  functions taking `&mut self` additionally return the updated state.
-/

namespace Rslox

/-- The error enum of src/error.rs (`LoxError`), restricted to the variants
produced by the functions embedded here.  The `Internal` sub-enum is inlined
as the three `Internal*` constructors.  `chunk.rs` constructs `CompileError`
without a message; that is modelled by passing the empty string. -/
inductive LoxErr where
  | CompileError (msg : String)
  | InternalCompilerError
  | RuntimeError
  | StackOverflow
  | StackUnderflow
  | TypeError
  | TooManyLocalVariables
  | InvalidTypeForAddition
  | InvalidTypeForEquals
  | ValueNotCallable
  | InvalidArguments (msg : String)
  | InvalidUpvalue
  | InternalInvalidHandle
  | InternalGlobalLookupFailure
  | InternalCorruptedStack
  | InternalVmError (msg : String)
  | TempDevError (msg : String)
  deriving DecidableEq

/-- src/value.rs (the iteration used by src/vm.rs): a `Value` is `Nil`, a
boolean, a number (`f64`, abstracted as `N`), or a handle to a heap object. -/
inductive Value (N : Type) where
  | Nil
  | Bool (b : Bool)
  | Number (n : N)
  | Obj (handle : Nat)
  deriving DecidableEq

/-- src/chunk.rs `Chunk`: bytecode bytes, a parallel line array and the
constant pool.  (`chunk.rs` in the tree stores `Const` values while the VM
iteration stores `Value`s in the pool; the pool logic is identical, and the
`Value`-typed pool is the one every embedded consumer uses.) -/
structure Chunk (N : Type) where
  name : String
  code : List Nat
  lines : List Nat
  constants : List (Value N)
  deriving DecidableEq

/-- `Chunk::default()` / `Chunk::new` with empty buffers. -/
def Chunk.empty {N : Type} : Chunk N := ⟨"", [], [], []⟩

/-- src/chunk.rs `Chunk::write`: append one byte and its line. -/
def Chunk.write {N : Type} (c : Chunk N) (byte : Nat) (line : Nat) : Chunk N :=
  { c with code := c.code ++ [byte], lines := c.lines ++ [line] }

/-- src/chunk.rs `Chunk::add_constant`: reject when 256 constants already
exist, otherwise push and return `self.constants.len() as u8 - 1`.  The
result expression is modelled with wrapping `u8` arithmetic:
`(len mod 256 + 255) mod 256`, which is what the cast-then-subtract computes
in release mode (for `len = 256` the cast gives 0 and the subtraction wraps
to 255). -/
def Chunk.add_constant {N : Type} (c : Chunk N) (value : Value N) :
    Chunk N × Except LoxErr Nat :=
  if 256 ≤ c.constants.length then
    (c, .error (.CompileError ""))
  else
    let c2 := { c with constants := c.constants ++ [value] }
    (c2, .ok ((c2.constants.length % 256 + 255) % 256))

/-- Iterated `add_constant`, propagating the first failure: models a
sequence of `add_constant` calls against the same chunk. -/
def add_constant_list {N : Type} (c : Chunk N) : List (Value N) → Option (Chunk N)
  | [] => some c
  | v :: vs =>
    match c.add_constant v with
    | (c2, .ok _) => add_constant_list c2 vs
    | (_, .error _) => none

/-- src/compiler.rs `Local`: a declared local variable.  `depth = -1` marks
a local that is declared but not yet initialized. -/
structure Local where
  name : String
  depth : Int
  is_captured : Bool
  deriving DecidableEq

/-- The locals list built by `Compiler::new` (src/compiler.rs 71-77): slot 0
is reserved with an empty name and depth 0. -/
def initLocals : List Local := [⟨"", 0, false⟩]

/-- src/compiler.rs `Compiler::add_local` (370-382): error when the locals
list already holds 256 entries, otherwise push the new local with depth -1. -/
def add_local (locals : List Local) (name : String) : Except LoxErr (List Local) :=
  if locals.length == 256 then
    .error .TooManyLocalVariables
  else
    .ok (locals ++ [⟨name, -1, false⟩])

/-- `n` successive `add_local` calls with distinct names, propagating the
first failure: models `n` local declarations in one function body. -/
def add_local_iter : Nat → List Local → Except LoxErr (List Local)
  | 0, locals => .ok locals
  | n + 1, locals =>
    match add_local locals ("v" ++ toString n) with
    | .ok locals2 => add_local_iter n locals2
    | .error e => .error e

/-- src/compiler.rs `Upvalue` (31-34): a compile-time upvalue descriptor. -/
structure CompUpvalue where
  is_local : Bool
  index : Nat
  deriving DecidableEq

/-- src/compiler.rs `Compiler::add_upvalue` (744-768), as a function of the
selected upvalues list.  The dedup loop returns the ARGUMENT `index` when a
matching `(is_local, index)` pair exists (source line 757: `return Ok(index)`),
not the matching entry's position in the list.  Otherwise: error at 255
entries, else push and return `upvalues.len() as u8 - 1` (wrapping model as
in `add_constant`; the length here never exceeds 255). -/
def add_upvalue (upvalues : List CompUpvalue) (index : Nat) (is_local : Bool) :
    List CompUpvalue × Except LoxErr Nat :=
  match upvalues.find? (fun u => u.index == index && u.is_local == is_local) with
  | some _ => (upvalues, .ok index)
  | none =>
    if 255 ≤ upvalues.length then
      (upvalues, .error (.CompileError "too many upvalues"))
    else
      let ups := upvalues ++ [⟨is_local, index⟩]
      (ups, .ok ((ups.length % 256 + 255) % 256))

/-- src/token.rs `TokenType` (number payload abstracted as `N`). -/
inductive TokenType (N : Type) where
  | LParen | RParen | LBrace | RBrace | Comma | Dot | Minus | Plus | Semicolon
  | Slash | Star
  | Bang | BangEq | Equal | EqualEq | Greater | GreaterEq | Less | LessEq
  | Ident (name : String) | Str (value : String) | Num (n : N)
  | And | Class | Else | False | For | Fun | If | Nil | Or | Print | Return
  | Super | This | True | Var | While
  deriving DecidableEq

/-- Which statement compiler a leading token routes to. -/
inductive StmtRoute where
  | printStmt | blockStmt | ifStmt | whileStmt | returnStmt | exprStmt
  deriving DecidableEq

/-- The dispatch performed by `Compiler::statement` (src/compiler.rs
403-418).  There is no arm for `For`: a leading `for` token falls through
the wildcard to `expr_statement`. -/
def statementRoute {N : Type} : TokenType N → StmtRoute
  | .Print => .printStmt
  | .LBrace => .blockStmt
  | .If => .ifStmt
  | .While => .whileStmt
  | .Return => .returnStmt
  | _ => .exprStmt

/-- The prefix handlers of the Pratt parser. -/
inductive PrefixRule where
  | grouping | unary | number | literal | strRule | varRule | thisRule | superRule
  deriving DecidableEq

/-- The dispatch performed by `Compiler::prefix` (src/compiler.rs 959-972).
The wildcard arm of the source invokes the unimplemented macro and panics;
that arm is modelled as `none`. -/
def prefixRule {N : Type} : TokenType N → Option PrefixRule
  | .LParen => some .grouping
  | .Minus | .Bang => some .unary
  | .Num _ => some .number
  | .Nil | .True | .False => some .literal
  | .Str _ => some .strRule
  | .Ident _ => some .varRule
  | .This => some .thisRule
  | .Super => some .superRule
  | _ => none

/-- src/object.rs `LoxObj`: the six heap-object variants.  The per-variant
structs are inlined as constructor fields; the `is_marked` flag each struct
carries is factored into `HObj` below, since every variant has exactly one
and the GC reads and writes it uniformly. -/
inductive ObjData (N : Type) where
  | Str (value : String)
  | Closure (arity : Nat) (chunk : Chunk N) (name : Option Nat)
      (upvalues : List Nat) (upvalue_count : Nat)
  | Upvalue (location : Nat) (value : Option (Value N))
  | Class (name : String) (methods : List (String × Value N))
  | Instance (cls : Nat) (fields : List (String × Value N))
  | BoundMethod (receiver : Value N) (method : Nat)
  deriving DecidableEq

/-- A heap object together with its `is_marked` GC flag. -/
structure HObj (N : Type) where
  is_marked : Bool
  data : ObjData N
  deriving DecidableEq

/-- src/gc.rs `Heap`: the object set.  The Rust heap is a `HashSet` of raw
pointers; handle identity plus the pointee is modelled as an association
list from handle to object. -/
structure Heap (N : Type) where
  objects : List (Nat × HObj N)
  deriving DecidableEq

/-- src/gc.rs `Heap::get`: `Some` exactly when the handle is in the set. -/
def Heap.get {N : Type} (heap : Heap N) (h : Nat) : Option (HObj N) :=
  (heap.objects.find? (fun e => e.1 == h)).map Prod.snd

/-- In-place update of one object (what `Heap::get_mut` mutations do). -/
def Heap.modify {N : Type} (heap : Heap N) (h : Nat) (f : HObj N → HObj N) : Heap N :=
  ⟨heap.objects.map (fun e => if e.1 == h then (e.1, f e.2) else e)⟩

/-- A fresh handle for `Heap::insert` (a new allocation's address). -/
def Heap.fresh {N : Type} (heap : Heap N) : Nat :=
  (heap.objects.map Prod.fst).foldr max 0 + 1

/-- `HashMap` lookup keyed by string content (globals, methods, fields). -/
def lookupStr {N : Type} (table : List (String × Value N)) (key : String) :
    Option (Value N) :=
  (table.find? (fun e => e.1 == key)).map Prod.snd

/-- src/vm.rs `CallFrame`. -/
structure CallFrame where
  closure : Nat
  ip : Nat
  fp : Nat
  deriving DecidableEq

/-- src/vm.rs `FRAMES_MAX`. -/
def FRAMES_MAX : Nat := 64

/-- src/vm.rs `STACK_MAX`. -/
def STACK_MAX : Nat := FRAMES_MAX * 256

/-- src/vm.rs `INITIAL_GC_THRESHOLD`. -/
def INITIAL_GC_THRESHOLD : Nat := 1024 * 1024

/-- src/vm.rs `GC_HEAP_GROW_FACTOR`. -/
def GC_HEAP_GROW_FACTOR : Nat := 2

/-- src/vm.rs `Vm`: the interpreter state.  The gray worklist is a `Vec`
used push/pop at the end; it is modelled as a list used cons/head, which is
the same stack. -/
structure Vm (N : Type) where
  stack : List (Option (Value N))
  heap : Heap N
  frames : List CallFrame
  globals : List (String × Value N)
  sp : Nat
  open_upvalues : List (Nat × Nat)
  gray_stack : List Nat
  bytes_allocated : Nat
  next_gc : Nat
  deriving DecidableEq

/-- src/vm.rs `Vm::push` (773-781): error when `sp` reached the fixed stack
capacity, otherwise store `Some value` at `sp` and increment `sp`. -/
def Vm.push {N : Type} (s : Vm N) (v : Value N) : Except LoxErr (Vm N) :=
  if s.sp == s.stack.length then .error .StackOverflow
  else .ok { s with stack := s.stack.set s.sp (some v), sp := s.sp + 1 }

/-- src/vm.rs `Vm::pop` (783-793): error when `sp = 0`; otherwise decrement
`sp`, `take()` the slot (leaving `None` behind) and fail with the
`CorruptedStack` internal error if the slot held `None`.  An out-of-bounds
index would panic in Rust; `getD` reads it as `None`, and the reachability
invariant proved below shows `sp` never exceeds the stack length. -/
def Vm.pop {N : Type} (s : Vm N) : Except LoxErr (Value N × Vm N) :=
  if s.sp == 0 then .error .StackUnderflow
  else
    match s.stack.getD (s.sp - 1) none with
    | some v => .ok (v, { s with sp := s.sp - 1, stack := s.stack.set (s.sp - 1) none })
    | none => .error .InternalCorruptedStack

/-- src/vm.rs `Vm::peek` (795-797): read slot `sp - 1` without popping;
`CorruptedStack` if it holds `None`.  (With `sp = 0` the Rust index
`sp - 1` underflows and panics; the claim below only concerns `0 < sp`.) -/
def Vm.peek {N : Type} (s : Vm N) : Except LoxErr (Value N) :=
  match s.stack.getD (s.sp - 1) none with
  | some v => .ok v
  | none => .error .InternalCorruptedStack

/-- src/gc.rs `mark_object` (146-162): look the handle up (error when it is
not in the heap), then mark and enqueue it on the gray stack — but only for
the `Str`, `Closure` and `Upvalue` variants; every other variant falls to
the catch-all arm and is neither marked nor enqueued.  An already-marked
object is not re-enqueued. -/
def mark_object {N : Type} (heap : Heap N) (gray : List Nat) (h : Nat) :
    Except LoxErr (Heap N × List Nat) :=
  match Heap.get heap h with
  | none => .error (.TempDevError "gc mark")
  | some o =>
    match o.data with
    | .Str _ | .Closure _ _ _ _ _ | .Upvalue _ _ =>
      if o.is_marked then .ok (heap, gray)
      else .ok (Heap.modify heap h (fun e => { e with is_marked := true }), h :: gray)
    | _ => .ok (heap, gray)

/-- Modelled from the spec: `mark_table` is imported by src/vm.rs from the
gc module but is absent from the source tree.  Per spec section 4.4, the
mark phase marks "every value in the globals mapping whose variant is
Object" (and likewise for method/field tables), each via `mark_object`. -/
def mark_table {N : Type} (heap : Heap N) (gray : List Nat)
    (table : List (String × Value N)) : Except LoxErr (Heap N × List Nat) :=
  table.foldlM
    (fun acc kv =>
      match kv.2 with
      | .Obj h => mark_object acc.1 acc.2 h
      | _ => .ok acc)
    (heap, gray)

/-- The stack-roots loop of `Vm::mark_roots` (vm.rs 850-861): walk slots
`0 .. sp-1`, marking `Obj` values; the loop BREAKS at the first `None`
slot. -/
def markStackSlots {N : Type} (heap : Heap N) (gray : List Nat) :
    List (Option (Value N)) → Except LoxErr (Heap N × List Nat)
  | [] => .ok (heap, gray)
  | none :: _ => .ok (heap, gray)
  | some v :: rest =>
    match v with
    | .Obj h => do
      let acc ← mark_object heap gray h
      markStackSlots acc.1 acc.2 rest
    | _ => markStackSlots heap gray rest

/-- src/vm.rs `Vm::mark_roots` (847-883): mark the stack slots below `sp`,
every frame's closure, every open upvalue and the globals table. -/
def mark_roots {N : Type} (s : Vm N) : Except LoxErr (Vm N) := do
  let acc ← markStackSlots s.heap s.gray_stack (s.stack.take s.sp)
  let acc ← s.frames.foldlM (fun acc f => mark_object acc.1 acc.2 f.closure) acc
  let acc ← s.open_upvalues.foldlM (fun acc u => mark_object acc.1 acc.2 u.2) acc
  let acc ← mark_table acc.1 acc.2 s.globals
  .ok { s with heap := acc.1, gray_stack := acc.2 }

/-- src/vm.rs `Vm::blacken_object` (894-945): mark everything one object
directly references. -/
def blacken_object {N : Type} (heap : Heap N) (gray : List Nat) (h : Nat) :
    Except LoxErr (Heap N × List Nat) :=
  match Heap.get heap h with
  | none => .error .InternalInvalidHandle
  | some o =>
    match o.data with
    | .Str _ => .ok (heap, gray)
    | .Closure _ chunk name upvalues _ => do
      let acc ←
        match name with
        | some nameHandle => mark_object heap gray nameHandle
        | none => .ok (heap, gray)
      let acc ← chunk.constants.foldlM
        (fun acc v =>
          match v with
          | .Obj ch => mark_object acc.1 acc.2 ch
          | _ => .ok acc)
        acc
      upvalues.foldlM (fun acc uh => mark_object acc.1 acc.2 uh) acc
    | .Upvalue _ value =>
      match value with
      | some (.Obj vh) => mark_object heap gray vh
      | some _ => .error .InvalidUpvalue
      | none => .ok (heap, gray)
    | .Class _ methods => mark_table heap gray methods
    | .Instance cls fields => do
      let acc ← mark_object heap gray cls
      mark_table acc.1 acc.2 fields
    | .BoundMethod receiver method => do
      let acc ← mark_object heap gray method
      match receiver with
      | .Obj rh => mark_object acc.1 acc.2 rh
      | _ => .ok acc

/-- src/vm.rs `Vm::trace_references` (885-891): pop gray handles and
blacken them until the worklist is empty.  The loop is modelled with
explicit fuel; exhausting it is a modelling artifact reported as an
internal error (the concrete runs below never exhaust it). -/
def trace_references {N : Type} :
    Nat → Heap N → List Nat → Except LoxErr (Heap N × List Nat)
  | 0, heap, gray =>
    match gray with
    | [] => .ok (heap, [])
    | _ => .error (.InternalVmError "trace fuel exhausted")
  | fuel + 1, heap, gray =>
    match gray with
    | [] => .ok (heap, [])
    | h :: rest => do
      let acc ← blacken_object heap rest h
      trace_references fuel acc.1 acc.2

/-- src/vm.rs `Vm::sweep` (947-969): keep each marked object with its flag
cleared, drop every unmarked object, and subtract the freed byte estimate
(release-mode semantics; `objSize` stands for `size_of::<LoxObj>()`, a
platform constant none of the claims depend on). -/
def Vm.sweep {N : Type} (s : Vm N) (objSize : Nat) : Vm N :=
  let kept := s.heap.objects.filterMap
    (fun e => if e.2.is_marked then some (e.1, { e.2 with is_marked := false }) else none)
  let freed := (s.heap.objects.countP (fun e => !e.2.is_marked)) * objSize
  { s with heap := ⟨kept⟩, bytes_allocated := s.bytes_allocated - freed }

/-- src/vm.rs `Vm::collect_garbage` (971-985): mark roots, trace, sweep,
then set the next collection threshold. -/
def collect_garbage {N : Type} (fuel objSize : Nat) (s : Vm N) :
    Except LoxErr (Vm N) := do
  let s1 ← mark_roots s
  let acc ← trace_references fuel s1.heap s1.gray_stack
  let s2 := Vm.sweep { s1 with heap := acc.1, gray_stack := acc.2 } objSize
  .ok { s2 with next_gc := s2.bytes_allocated * GC_HEAP_GROW_FACTOR }

/-- src/vm.rs `Vm::update_bytes_allocated` (822-828): bump the allocation
estimate and collect when it exceeds the threshold. -/
def update_bytes_allocated {N : Type} (fuel objSize : Nat) (s : Vm N) :
    Except LoxErr (Vm N) :=
  let s2 := { s with bytes_allocated := s.bytes_allocated + objSize }
  if s2.next_gc < s2.bytes_allocated then collect_garbage fuel objSize s2 else .ok s2

/-- src/vm.rs `Vm::alloc` (830-839), release-mode path (the
`DEV_GC_TESTING && cfg!(debug_assertions)` branch is debug-build only):
account for the allocation (possibly collecting), then insert the object
unmarked and return its fresh handle. -/
def Vm.alloc {N : Type} (fuel objSize : Nat) (s : Vm N) (o : ObjData N) :
    Except LoxErr (Vm N × Nat) := do
  let s2 ← update_bytes_allocated fuel objSize s
  let h := Heap.fresh s2.heap
  .ok ({ s2 with heap := ⟨s2.heap.objects ++ [(h, ⟨false, o⟩)]⟩ }, h)

/-- src/vm.rs `INIT_STRING`. -/
def INIT_STRING : String := "init"

/-- src/vm.rs `Vm::call_value` (633-699).  NOTE the source's own comment at
line 634: `TODO: ensure arg count matches function/method/init arity` — no
arity check is performed anywhere in this function, and no check of the
frame count against `FRAMES_MAX` either.  `depth` bounds the source's
recursion (a class's `init` call re-enters `call_value`); `fuel`/`objSize`
parameterize the GC exactly as in `Vm.alloc`.  The frame pointer
`sp - 1 - arg_count` is `usize` arithmetic; every use below has
`arg_count < sp`, where `Nat` and `usize` subtraction agree. -/
def call_value {N : Type} (fuel objSize : Nat) :
    Nat → Vm N → Value N → Nat → Except LoxErr (Vm N)
  | depth, s, value, arg_count =>
    match value with
    | .Obj handle =>
      match Heap.get s.heap handle with
      | none => .error .InternalInvalidHandle
      | some o =>
        match o.data with
        | .Closure _ _ _ _ _ =>
          .ok { s with frames := s.frames ++ [⟨handle, 0, s.sp - 1 - arg_count⟩] }
        | .Class _ methods =>
          match lookupStr methods INIT_STRING with
          | some initValue =>
            match depth with
            | 0 => .error (.InternalVmError "call fuel exhausted")
            | d + 1 => do
              let (s2, ih) ← Vm.alloc fuel objSize s (.Instance handle [])
              let s3 := { s2 with
                stack := s2.stack.set (s2.sp - 1 - arg_count) (some (.Obj ih)) }
              call_value fuel objSize d s3 initValue arg_count
          | none =>
            if arg_count != 0 then
              .error (.InvalidArguments "more than zero args to class without init")
            else do
              let (s2, ih) ← Vm.alloc fuel objSize s (.Instance handle [])
              .ok { s2 with
                stack := s2.stack.set (s2.sp - 1 - arg_count) (some (.Obj ih)) }
        | .BoundMethod receiver method =>
          .ok { s with
            stack := s.stack.set (s.sp - 1 - arg_count) (some receiver),
            frames := s.frames ++ [⟨method, 0, s.sp - 1 - arg_count⟩] }
        | _ => .error .ValueNotCallable
    | _ => .error .ValueNotCallable

/-- The `OpCode::Equal` arm of `Vm::run` (vm.rs 189-213), as a function of
the heap and the two popped operands (`a` was pushed first, `b` second).
Numbers compare with `f64::eq` (the `BEq` on `N`); two heap objects that
are both strings compare by content; two heap objects that are not both
strings raise `TypeError`; every remaining combination — including two
Nils and two Bools — falls to the wildcard arm and raises
`InvalidTypeForEquals`. -/
def equalOp {N : Type} [BEq N] (heap : Heap N) (a b : Value N) :
    Except LoxErr Bool :=
  match a, b with
  | .Number x, .Number y => .ok (x == y)
  | .Obj ha, .Obj hb =>
    match Heap.get heap ha, Heap.get heap hb with
    | some oa, some ob =>
      match oa.data, ob.data with
      | .Str sa, .Str sb => .ok (sa == sb)
      | _, _ => .error .TypeError
    | _, _ => .error .InternalInvalidHandle
  | _, _ => .error .InvalidTypeForEquals

/-- The `fmt::Debug` impls of src/object.rs rendered without following any
handle (used only when the deref budget below is exhausted, which no run in
this file reaches). -/
def renderShallow {N : Type} : ObjData N → String
  | .Str s => "\"" ++ s ++ "\""
  | .Closure _ _ name _ _ =>
    "<Lox Closure " ++ (match name with | none => "None" | some _ => "Some(..)") ++ ">"
  | .Upvalue loc _ => toString loc
  | .Class n _ => "<Class " ++ n ++ ">"
  | .Instance _ _ => "Instance of .."
  | .BoundMethod _ _ => "Bound Method"

/-- The `fmt::Debug` impls of src/object.rs (with `EXPAND_CLOSURES = false`):
* `ObjString` (33-37): the content wrapped in double quotes;
* `ObjClosure` (50-53): `<Lox Closure {name:?}>` where the name is an
  `Option<ValueHandle>` (derived `Option` Debug prints `None` or
  `Some(..)`, and `Handle`'s Debug derefs the pointee and prints it);
* `ObjUpvalue` (81-85): the decimal stack location;
* `ObjClass` (93-97): `<Class Name>`;
* `ObjInstance` (106-110): `Instance of ` followed by the deref'd class;
* `ObjBoundMethod` (120-124): the literal `Bound Method`.
Handle derefs recurse through the heap; the recursion is bounded by `fuel`
(a dangling handle is undefined behaviour in Rust and rendered here as a
placeholder). -/
def renderObj {N : Type} (heap : Heap N) : Nat → ObjData N → String
  | 0, o => renderShallow o
  | fuel + 1, o =>
    match o with
    | .Closure _ _ name _ _ =>
      "<Lox Closure " ++
        (match name with
         | none => "None"
         | some h =>
           "Some(" ++
             (match Heap.get heap h with
              | some e => renderObj heap fuel e.data
              | none => "..") ++ ")") ++ ">"
    | .Instance cls _ =>
      "Instance of " ++
        (match Heap.get heap cls with
         | some e => renderObj heap fuel e.data
         | none => "..")
    | other => renderShallow other

/-- The `fmt::Debug` impl for `Value` (src/value.rs 21-30): an object value
delegates to the object's own Debug, booleans and numbers print with
Display, and `Nil` prints as the literal `Nil` (capital N).  `numFmt`
stands for Rust's `f64` Display.  (The tree's object.rs declares `LoxObj`
as an enum with a derived Debug while value.rs delegates through a trait
object; the composition modelled here follows the delegation of value.rs,
i.e. each variant's own impl with no derived variant wrapper.  Either
reading renders `Nil`, quoted strings, `<Class ..>` and `Instance of ..`
the same way.) -/
def renderValue {N : Type} (heap : Heap N) (numFmt : N → String) : Value N → String
  | .Obj h =>
    match Heap.get heap h with
    | some o => renderObj heap 4 o.data
    | none => ".."
  | .Bool b => if b then "true" else "false"
  | .Number n => numFmt n
  | .Nil => "Nil"

/-- The `OpCode::Print` arm of `Vm::run` (vm.rs 217-220): `println!` of the
Debug rendering of the popped value, i.e. the rendering followed by a
newline. -/
def printOutput {N : Type} (heap : Heap N) (numFmt : N → String) (v : Value N) :
    String :=
  renderValue heap numFmt v ++ "\n"

/-- The VM states reachable while running compiler-produced bytecode,
closed under the stack-mutating operations `Vm::run` performs:
* `init`: `Vm::new` — a stack of `STACK_MAX` `None` slots and `sp = 0`
  (the other fields are arbitrary);
* `push` / `pop`: the only operations that move `sp`;
* `write`: every in-place store below `sp` writes a `Some` value
  (`SetLocal` at `fp + idx`, `SetUpvalue` through an open upvalue's
  location, and `call_value`'s replacement of the callee slot); the bound
  `i < sp` is the stack discipline compiler-produced bytecode maintains;
* `truncate`: `OpCode::Return` sets `sp` to the popped frame's `fp`, which
  for balanced (compiler-produced) bytecode is at most `sp`;
* `frame`: any transition that leaves the value stack and `sp` untouched
  (frame pushes, heap allocation, GC, globals updates). -/
inductive Reach {N : Type} : Vm N → Prop where
  | init (s : Vm N) : s.stack = List.replicate STACK_MAX none → s.sp = 0 → Reach s
  | push (s s2 : Vm N) (v : Value N) : Reach s → Vm.push s v = .ok s2 → Reach s2
  | pop (s s2 : Vm N) (v : Value N) : Reach s → Vm.pop s = .ok (v, s2) → Reach s2
  | write (s : Vm N) (i : Nat) (v : Value N) : Reach s → i < s.sp →
      Reach { s with stack := s.stack.set i (some v) }
  | truncate (s : Vm N) (fp : Nat) : Reach s → fp ≤ s.sp → Reach { s with sp := fp }
  | frame (s s2 : Vm N) : Reach s → s2.stack = s.stack → s2.sp = s.sp → Reach s2

/-- The stack well-formedness invariant: fixed capacity, `sp` in bounds,
and every slot strictly below `sp` holds `Some`. -/
def StackOk {N : Type} (s : Vm N) : Prop :=
  s.stack.length = STACK_MAX ∧ s.sp ≤ STACK_MAX ∧
    ∀ i, i < s.sp → (s.stack.getD i none).isSome = true

theorem reach_stackOk {N : Type} {s : Vm N} (h : Reach s) : StackOk s := by
  induction h with
  | init s hstack hsp =>
    refine ⟨by simp [hstack], by simp [hsp], ?_⟩
    intro i hi
    omega
  | push s s2 v _ hpush ih =>
    obtain ⟨hlen, hsp, hslots⟩ := ih
    unfold Vm.push at hpush
    split at hpush
    · exact absurd hpush (by simp)
    · rename_i hne
      have hne2 : s.sp ≠ s.stack.length := by simpa using hne
      have hlt : s.sp < s.stack.length := by omega
      obtain rfl : s2 = { s with stack := s.stack.set s.sp (some v), sp := s.sp + 1 } := by
        simpa using hpush.symm
      refine ⟨by simpa using hlen, by simp; omega, ?_⟩
      intro i hi
      simp only at hi ⊢
      rcases Nat.lt_or_ge i s.sp with hlt2 | hge
      · rw [List.getD_eq_getElem?_getD, List.getElem?_set_ne (by omega)]
        rw [← List.getD_eq_getElem?_getD]
        exact hslots i hlt2
      · have : i = s.sp := by omega
        subst this
        rw [List.getD_eq_getElem?_getD, List.getElem?_set_eq_of_lt (some v) hlt]
        rfl
  | pop s s2 v _ hpop ih =>
    obtain ⟨hlen, hsp, hslots⟩ := ih
    unfold Vm.pop at hpop
    split at hpop
    · exact absurd hpop (by simp)
    · rename_i hne
      split at hpop
      · rename_i w hw
        simp only [Except.ok.injEq, Prod.mk.injEq] at hpop
        obtain ⟨-, hs2⟩ := hpop
        subst hs2
        refine ⟨by simpa using hlen, by simp; omega, ?_⟩
        intro i hi
        simp only at hi ⊢
        rw [List.getD_eq_getElem?_getD, List.getElem?_set_ne (by omega)]
        rw [← List.getD_eq_getElem?_getD]
        exact hslots i (by omega)
      · exact absurd hpop (by simp)
  | write s i v _ hi ih =>
    obtain ⟨hlen, hsp, hslots⟩ := ih
    refine ⟨by simpa using hlen, by simpa using hsp, ?_⟩
    intro j hj
    simp only at hj ⊢
    rcases Decidable.em (i = j) with rfl | hne
    · rw [List.getD_eq_getElem?_getD, List.getElem?_set_eq_of_lt (some v) (by omega)]
      rfl
    · rw [List.getD_eq_getElem?_getD, List.getElem?_set_ne hne]
      rw [← List.getD_eq_getElem?_getD]
      exact hslots j hj
  | truncate s fp _ hfp ih =>
    obtain ⟨hlen, hsp, hslots⟩ := ih
    exact ⟨hlen, by simp; omega, fun i hi => hslots i (by simp at hi; omega)⟩
  | frame s s2 _ hstack hsp ih =>
    obtain ⟨hlen, hsp2, hslots⟩ := ih
    exact ⟨hstack ▸ hlen, hsp ▸ hsp2, fun i hi => by
      rw [hstack]; exact hslots i (hsp ▸ hi)⟩

theorem add_constant_list_ok {N : Type} (vs : List (Value N)) (c : Chunk N)
    (h : c.constants.length + vs.length ≤ 256) :
    add_constant_list c vs = some { c with constants := c.constants ++ vs } := by
  induction vs generalizing c with
  | nil => simp [add_constant_list]
  | cons v vs ih =>
    have hlt : ¬ 256 ≤ c.constants.length := by simp at h; omega
    unfold add_constant_list Chunk.add_constant
    rw [if_neg hlt]
    simp only
    rw [ih { c with constants := c.constants ++ [v] } (by simp at h ⊢; omega)]
    simp

/-- C9: the k-th call of add_constant on an initially empty chunk returns
index k and appends a constant equal to the input (so the stored constant
at position k is the input); with 256 constants present, add_constant
signals a compile error and leaves the pool unchanged.  The returned index
is computed with release-mode u8 wrapping, which yields k for every
k < 256 (including k = 255, where the cast-and-subtract wraps). -/
theorem add_constant_spec (vs : List (Value Int)) (v : Value Int)
    (hlen : vs.length < 256) :
    add_constant_list (Chunk.empty : Chunk Int) vs =
      some { (Chunk.empty : Chunk Int) with constants := vs } ∧
    Chunk.add_constant { (Chunk.empty : Chunk Int) with constants := vs } v =
      ({ (Chunk.empty : Chunk Int) with constants := vs ++ [v] }, .ok vs.length) ∧
    ∀ (c : Chunk Int) (w : Value Int), c.constants.length = 256 →
      c.add_constant w = (c, .error (.CompileError "")) := by
  refine ⟨?_, ?_, ?_⟩
  · simpa [Chunk.empty] using
      add_constant_list_ok vs (Chunk.empty : Chunk Int) (by simp [Chunk.empty]; omega)
  · have h2 : ¬ 256 ≤ vs.length := by omega
    simp only [Chunk.add_constant, List.length_append, List.length_cons,
      List.length_nil, h2, if_false, Prod.mk.injEq, Except.ok.injEq]
    exact ⟨trivial, by omega⟩
  · intro c w hc
    unfold Chunk.add_constant
    rw [if_pos (by omega)]

set_option maxRecDepth 8192 in
theorem add_constant_spec_witness :
    (List.replicate 255 (Value.Nil : Value Int)).length < 256 ∧
    Chunk.add_constant
        { (Chunk.empty : Chunk Int) with
            constants := List.replicate 255 (Value.Nil : Value Int) }
        (Value.Number 3) =
      ({ (Chunk.empty : Chunk Int) with
          constants := List.replicate 255 (Value.Nil : Value Int) ++ [Value.Number 3] },
        .ok 255) :=
  ⟨by simp,
    (add_constant_spec (List.replicate 255 Value.Nil) (Value.Number 3) (by simp)).2.1⟩

set_option maxRecDepth 8192 in
/-- C7 counterexample: declaring 256 locals in one function does NOT
compile — the 256th `add_local` call finds the locals list already at 256
entries (slot 0 is reserved by `Compiler::new`) and reports
TooManyLocalVariables. -/
theorem add_local_256_fails :
    add_local_iter 256 initLocals = .error .TooManyLocalVariables := by rfl

set_option maxRecDepth 8192 in
/-- C7 (amended): in a single function, declaring 255 local variables
compiles (filling the list to its 256-entry capacity, slot 0 being
reserved), and declaring a 256th local is a compile error. -/
theorem add_local_255_limit :
    ∃ locals, add_local_iter 255 initLocals = .ok locals ∧ locals.length = 256 ∧
      ∀ name, add_local locals name = .error .TooManyLocalVariables := by
  refine ⟨_, rfl, by rfl, fun name => rfl⟩

/-- C8: the dedup path of add_upvalue returns its `index` ARGUMENT, not the
position of the existing entry.  The first call appends `(true, 5)` and
returns position 0; the second call with the same pair appends nothing but
returns 5 — an upvalue index that does not exist in the list. -/
theorem add_upvalue_dedup_returns_argument :
    add_upvalue [] 5 true = ([⟨true, 5⟩], .ok 0) ∧
    add_upvalue [⟨true, 5⟩] 5 true = ([⟨true, 5⟩], .ok 5) := ⟨rfl, rfl⟩

/-- C5 counterexample: a `for` statement is not desugared to `while`; the
statement dispatcher has no arm for `For`, so it is routed to
expression-statement parsing, whose prefix dispatch is unimplemented for
`For` (the source panics there). -/
theorem for_prefix_unimplemented :
    statementRoute (TokenType.For : TokenType Int) = StmtRoute.exprStmt ∧
    prefixRule (TokenType.For : TokenType Int) = none := ⟨rfl, rfl⟩

/-- C5 (amended): the compiler has no dedicated `for` opcode and no `for`
support at all: `Compiler::statement` routes a leading `for` token to
`expr_statement` (there is no `for` arm), and `Compiler::prefix` has no
handler for `For` (the wildcard arm panics via the unimplemented macro),
while `while` is a supported statement. -/
theorem for_statement_unsupported :
    statementRoute (TokenType.For : TokenType Int) = StmtRoute.exprStmt ∧
    prefixRule (TokenType.For : TokenType Int) = none ∧
    statementRoute (TokenType.While : TokenType Int) = StmtRoute.whileStmt ∧
    prefixRule (TokenType.While : TokenType Int) = none := ⟨rfl, rfl, rfl, rfl⟩

/-- C3 counterexample: the Equal opcode errors rather than pushing a Bool
on two Nil operands (the claim says two Nils compare equal), and likewise
on two Bool operands. -/
theorem equal_nil_nil_errors :
    equalOp (N := Int) ⟨[]⟩ Value.Nil Value.Nil = .error .InvalidTypeForEquals ∧
    equalOp (N := Int) ⟨[]⟩ (Value.Bool true) (Value.Bool true) =
      .error .InvalidTypeForEquals := ⟨rfl, rfl⟩

/-- True exactly on the operand pairs that reach the wildcard arm of the
Equal opcode (everything except Number/Number and Obj/Obj). -/
def equalFallthrough {N : Type} : Value N → Value N → Bool
  | .Number _, .Number _ => false
  | .Obj _, .Obj _ => false
  | _, _ => true

/-- C3 (amended): Equal pushes a Bool only for two Numbers (compared with
`f64::eq`) or two heap objects that are both Strings (compared by
content); two objects that are not both Strings raise TypeError, and every
other combination — including two Nils and two Bools — raises
InvalidTypeForEquals. -/
theorem equalOp_spec {N : Type} [BEq N] (heap : Heap N) :
    (∀ x y : N, equalOp heap (.Number x) (.Number y) = .ok (x == y)) ∧
    (∀ ha hb oa ob sa sb, Heap.get heap ha = some oa → Heap.get heap hb = some ob →
      oa.data = .Str sa → ob.data = .Str sb →
      equalOp heap (.Obj ha) (.Obj hb) = .ok (sa == sb)) ∧
    (∀ ha hb oa ob, Heap.get heap ha = some oa → Heap.get heap hb = some ob →
      ((∀ t, oa.data ≠ .Str t) ∨ (∀ t, ob.data ≠ .Str t)) →
      equalOp heap (.Obj ha) (.Obj hb) = .error .TypeError) ∧
    (∀ a b, equalFallthrough a b = true →
      equalOp heap a b = .error .InvalidTypeForEquals) := by
  refine ⟨fun x y => rfl, ?_, ?_, ?_⟩
  · intro ha hb oa ob sa sb hga hgb hda hdb
    simp [equalOp, hga, hgb, hda, hdb]
  · intro ha hb oa ob hga hgb hns
    simp only [equalOp, hga, hgb]
    rcases hda : oa.data <;> rcases hdb : ob.data <;>
      first
        | rfl
        | (rcases hns with hns | hns <;> simp_all)
  · intro a b hf
    cases a <;> cases b <;> first | rfl | simp [equalFallthrough] at hf

/-- The heap used to witness the Str/Str arm of the Equal opcode. -/
def c3Heap : Heap Int := ⟨[(1, ⟨false, .Str "lo"⟩), (2, ⟨false, .Str "lo"⟩)]⟩

theorem equalOp_spec_witness :
    equalOp c3Heap (Value.Obj 1) (Value.Obj 2) = .ok ("lo" == "lo") :=
  (equalOp_spec c3Heap).2.1 1 2 ⟨false, .Str "lo"⟩ ⟨false, .Str "lo"⟩ "lo" "lo"
    rfl rfl rfl rfl

/-- C6 counterexample: Print renders Nil as the literal `Nil` (capital N,
from the Debug impl in src/value.rs line 27), not `nil` as the claim
states. -/
theorem print_nil_renders_capital :
    printOutput (N := Int) ⟨[]⟩ (fun _ => "") Value.Nil = "Nil\n" ∧
    ("Nil\n" : String) ≠ "nil\n" := ⟨rfl, by decide⟩

/-- C6 (amended): Print writes the Rust Debug rendering of the value
followed by a newline: `Nil` (capital) for Nil, `true`/`false` for Bools,
the f64 Display form for Numbers, the string content WRAPPED IN DOUBLE
QUOTES for Strings, `<Lox Closure Some("name")>` for closures,
`<Class Name>` for classes, `Instance of <Class Name>` for instances, and
`Bound Method` for bound methods. -/
theorem printOutput_spec {N : Type} (heap : Heap N) (numFmt : N → String) :
    printOutput heap numFmt Value.Nil = "Nil\n" ∧
    (∀ b, printOutput heap numFmt (.Bool b) = (if b then "true" else "false") ++ "\n") ∧
    (∀ n, printOutput heap numFmt (.Number n) = numFmt n ++ "\n") ∧
    (∀ h o s, Heap.get heap h = some o → o.data = .Str s →
      printOutput heap numFmt (.Obj h) = "\"" ++ s ++ "\"" ++ "\n") ∧
    (∀ h o n ms, Heap.get heap h = some o → o.data = .Class n ms →
      printOutput heap numFmt (.Obj h) = "<Class " ++ n ++ ">" ++ "\n") ∧
    (∀ h o cls flds co cn cm, Heap.get heap h = some o → o.data = .Instance cls flds →
      Heap.get heap cls = some co → co.data = .Class cn cm →
      printOutput heap numFmt (.Obj h) = "Instance of <Class " ++ cn ++ ">" ++ "\n") ∧
    (∀ h o ar ch nh ups uc no ns, Heap.get heap h = some o →
      o.data = .Closure ar ch (some nh) ups uc → Heap.get heap nh = some no →
      no.data = .Str ns →
      printOutput heap numFmt (.Obj h) =
        "<Lox Closure Some(" ++ "\"" ++ ns ++ "\"" ++ ")>" ++ "\n") ∧
    (∀ h o r m, Heap.get heap h = some o → o.data = .BoundMethod r m →
      printOutput heap numFmt (.Obj h) = "Bound Method" ++ "\n") := by
  refine ⟨rfl, fun b => by cases b <;> rfl, fun n => rfl, ?_, ?_, ?_, ?_, ?_⟩
  · intro h o s hg hd
    simp [printOutput, renderValue, renderObj, renderShallow, hg, hd]
  · intro h o n ms hg hd
    simp [printOutput, renderValue, renderObj, renderShallow, hg, hd]
  · intro h o cls flds co cn cm hg hd hgc hdc
    simp [printOutput, renderValue, renderObj, renderShallow, hg, hd, hgc, hdc,
      String.append_assoc]
    rw [show ("Instance of <Class " : String) = "Instance of " ++ "<Class " from rfl,
      String.append_assoc]
  · intro h o ar ch nh ups uc no ns hg hd hgn hdn
    simp [printOutput, renderValue, renderObj, renderShallow, hg, hd, hgn, hdn,
      String.append_assoc]
    rw [show ("<Lox Closure Some(\"" : String) =
          "<Lox Closure " ++ ("Some(" ++ "\"") from rfl,
      String.append_assoc, String.append_assoc]
  · intro h o r m hg hd
    simp [printOutput, renderValue, renderObj, renderShallow, hg, hd]

/-- The heap used to witness the instance rendering: handle 1 is a class
named A, handle 2 an instance of it. -/
def c6Heap : Heap Int :=
  ⟨[(1, ⟨false, .Class "A" []⟩), (2, ⟨false, .Instance 1 []⟩)]⟩

theorem printOutput_spec_witness :
    printOutput c6Heap (fun _ => "") (Value.Obj 2) =
      "Instance of <Class A>" ++ "\n" :=
  (printOutput_spec c6Heap (fun _ => "")).2.2.2.2.2.1 2 ⟨false, .Instance 1 []⟩ 1 []
    ⟨false, .Class "A" []⟩ "A" [] rfl rfl rfl rfl

/-- The state for the C1 run: one closure of ARITY 1 on the heap, rooted
in the only stack slot; no frames yet. -/
def c1State : Vm Int :=
  { stack := [some (.Obj 1)],
    heap := ⟨[(1, ⟨false, .Closure 1 Chunk.empty none [] 0⟩)]⟩,
    frames := [], globals := [], sp := 1, open_upvalues := [], gray_stack := [],
    bytes_allocated := 0, next_gc := INITIAL_GC_THRESHOLD }

/-- C1: calling a closure whose arity is 1 with `arg_count = 0` does NOT
raise a runtime error — `Vm::call_value` performs no arity check (its own
TODO comment admits the omission) and pushes the frame with
`fp = sp - 1 - argc = 0` regardless. -/
theorem call_value_no_arity_check :
    Heap.get c1State.heap 1 = some ⟨false, .Closure 1 Chunk.empty none [] 0⟩ ∧
    call_value 4 1 1 c1State (Value.Obj 1) 0 =
      .ok { c1State with frames := [⟨1, 0, 0⟩] } := ⟨rfl, rfl⟩

/-- The state for the C4 run: 64 live frames (the `FRAMES_MAX` the claim
says is the bound) and a zero-arity closure about to be called. -/
def c4State : Vm Int :=
  { stack := [some (.Obj 1)],
    heap := ⟨[(1, ⟨false, .Closure 0 Chunk.empty none [] 0⟩)]⟩,
    frames := List.replicate 64 ⟨1, 0, 0⟩, globals := [], sp := 1,
    open_upvalues := [], gray_stack := [],
    bytes_allocated := 0, next_gc := INITIAL_GC_THRESHOLD }

/-- C4: with `FRAMES_MAX = 64` frames already live, calling a closure does
NOT report a stack-overflow runtime error: `Vm::call_value` never compares
the frame count against `FRAMES_MAX` (the constant only sizes the value
stack and the frames vector's initial capacity), so a 65th frame is
pushed. -/
theorem call_value_exceeds_frames_max :
    FRAMES_MAX = 64 ∧ c4State.frames.length = FRAMES_MAX ∧
    Except.map (fun s => s.frames.length) (call_value 4 1 1 c4State (Value.Obj 1) 0) =
      .ok (FRAMES_MAX + 1) := ⟨rfl, by rfl, by rfl⟩

/-- The state for the C2 run: a single Class object, reachable as a root
(it sits in stack slot 0, below `sp = 1`), unmarked, before a cycle. -/
def c2State : Vm Int :=
  { stack := [some (.Obj 7)],
    heap := ⟨[(7, ⟨false, .Class "Foo" []⟩)]⟩,
    frames := [], globals := [], sp := 1, open_upvalues := [], gray_stack := [],
    bytes_allocated := 0, next_gc := INITIAL_GC_THRESHOLD }

/-- C2: a collection cycle FREES a Class object that is reachable from the
root set — `mark_object` (src/gc.rs) has arms only for Str, Closure and
Upvalue, so a rooted Class (likewise Instance or BoundMethod) is never
marked and the sweep drops it. -/
theorem collect_garbage_frees_reachable_class :
    c2State.stack.take c2State.sp = [some (Value.Obj 7)] ∧
    Heap.get c2State.heap 7 = some ⟨false, .Class "Foo" []⟩ ∧
    Except.map (fun s => Heap.get s.heap 7) (collect_garbage 4 1 c2State) =
      .ok none := ⟨rfl, rfl, rfl⟩

/-- C10: in every reachable VM state, every stack slot strictly below `sp`
holds `Some`; consequently, whenever `sp > 0`, neither `Vm::pop` nor
`Vm::peek` can return the `CorruptedStack` internal error. -/
theorem stack_below_sp_is_some {N : Type} (s : Vm N) (h : Reach s) :
    (∀ i, i < s.sp → (s.stack.getD i none).isSome = true) ∧
    (0 < s.sp →
      Vm.pop s ≠ .error .InternalCorruptedStack ∧
      Vm.peek s ≠ .error .InternalCorruptedStack) := by
  obtain ⟨hlen, hsp, hslots⟩ := reach_stackOk h
  refine ⟨hslots, fun hpos => ?_⟩
  have hs := hslots (s.sp - 1) (by omega)
  constructor
  · unfold Vm.pop
    rw [if_neg (by simp; omega)]
    cases hgd : s.stack.getD (s.sp - 1) none with
    | some v => simp
    | none => rw [hgd] at hs; simp at hs
  · unfold Vm.peek
    cases hgd : s.stack.getD (s.sp - 1) none with
    | some v => simp
    | none => rw [hgd] at hs; simp at hs

/-- The freshly constructed VM (`Vm::new` with an empty heap). -/
def c10Init : Vm Int :=
  { stack := List.replicate STACK_MAX none, heap := ⟨[]⟩, frames := [],
    globals := [], sp := 0, open_upvalues := [], gray_stack := [],
    bytes_allocated := 0, next_gc := INITIAL_GC_THRESHOLD }

/-- The VM after pushing one value onto the fresh stack. -/
def c10One : Vm Int :=
  { c10Init with
      stack := (List.replicate STACK_MAX none).set 0 (some Value.Nil),
      sp := 1 }

theorem stack_below_sp_is_some_witness :
    Vm.pop c10One ≠ .error .InternalCorruptedStack ∧
    Vm.peek c10One ≠ .error .InternalCorruptedStack := by
  have hpush : Vm.push c10Init Value.Nil = .ok c10One := by
    unfold Vm.push
    have hlen : c10Init.stack.length = STACK_MAX := by
      show (List.replicate STACK_MAX (none : Option (Value Int))).length = STACK_MAX
      exact List.length_replicate _ _
    rw [if_neg ?hc]
    case hc =>
      rw [show c10Init.sp = 0 from rfl, hlen]
      decide
    rfl
  exact (stack_below_sp_is_some c10One
      (Reach.push c10Init c10One Value.Nil (Reach.init c10Init rfl rfl) hpush)).2
    (by decide)

end Rslox
